import Mathlib

/-!
Verification of the form-validation component of the repository
(`src/script.js`, lines 114-220).  The script wires seven per-field
validators to a signup form, aggregates them on submit, and reports
failures as inline error text plus an "invalid" CSS class on the field.

The embedding is shallow: JS strings become `List Char`, the three regular
expressions become executable matchers over `List Char`, the JS
`Number(...)` coercion parses the exact rational value of the literal and
rounds it to the nearest IEEE-754 binary64 value (ties to even, overflow
to infinity) carried as an exact dyadic mantissa/exponent pair — so, as
in JS, `Number("12.9999999999999999")` is exactly 13 — and the DOM error
surface becomes an explicit `DomState` record mapping each field to its
displayed error text and the presence of the `invalid` class marker.
-/

set_option maxRecDepth 65536

set_option exponentiation.threshold 1200

/-! ### Character classes

`\s` in a JS regex, and the set trimmed by `String.prototype.trim`, are
the same set: WhiteSpace plus LineTerminator code points. -/

/-- Code points of JS WhiteSpace and LineTerminator characters. -/
def jsWsVals : List Nat :=
  [9, 10, 11, 12, 13, 32, 160, 0x1680,
   0x2000, 0x2001, 0x2002, 0x2003, 0x2004, 0x2005, 0x2006, 0x2007,
   0x2008, 0x2009, 0x200A, 0x2028, 0x2029, 0x202F, 0x205F, 0x3000, 0xFEFF]

/-- Is `c` a JS whitespace character (the class matched by `\s` and
removed by `trim`)? -/
def isJsWs (c : Char) : Bool := jsWsVals.contains c.toNat

/-- The class `[^\s@]` used by `emailRegex` in `src/script.js` line 126:
any character that is neither whitespace nor a commercial at. -/
def isAtomChar (c : Char) : Bool := !(isJsWs c) && !(c == '@')

/-- ASCII letter, the class `[A-Za-z]`. -/
def isAsciiLetter (c : Char) : Bool :=
  (decide (65 ≤ c.toNat) && decide (c.toNat ≤ 90)) ||
  (decide (97 ≤ c.toNat) && decide (c.toNat ≤ 122))

/-- ASCII digit, the class `\d`. -/
def isDigitChar (c : Char) : Bool :=
  decide (48 ≤ c.toNat) && decide (c.toNat ≤ 57)

/-- The class `[\w-]` used by `urlRegex` in `src/script.js` line 127. -/
def isWordDash (c : Char) : Bool :=
  isAsciiLetter c || isDigitChar c || c == '_' || c == '-'

/-- The class matched by `.` in a JS regex without the `s` flag:
everything except the four LineTerminator code points. -/
def isRegexDot (c : Char) : Bool :=
  !(c.toNat == 10 || c.toNat == 13 || c.toNat == 8232 || c.toNat == 8233)

/-- `String.prototype.trim`: strip JS whitespace from both ends. -/
def jsTrim (l : List Char) : List Char :=
  ((l.dropWhile isJsWs).reverse.dropWhile isJsWs).reverse

/-! ### emailRegex  (`src/script.js` line 126)

`/^[^\s@]+@[^\s@]+\.[^\s@]{2,}$/`.

The local part `[^\s@]+` cannot contain the following literal at sign, so
any successful match takes the local part to be exactly the maximal run
of `[^\s@]` characters; the character after it must be the at sign.  The
domain part `[^\s@]+\.[^\s@]{2,}` does require a search, because the
class `[^\s@]` itself contains the dot: a match is the existence of a dot
position `j` in the domain with a nonempty all-atom prefix before it and
an all-atom suffix of length at least 2 after it. -/

/-- Matcher for the anchored `[^\s@]+\.[^\s@]{2,}` part of `emailRegex`:
there is a dot at some position `j ≥ 1`, everything else is `[^\s@]`,
and at least two characters follow the dot. -/
def domMatch (d : List Char) : Bool :=
  (List.range d.length).any (fun j =>
    decide (1 ≤ j) && (d.take j).all isAtomChar && (d.getD j ' ' == '.') &&
    ((d.drop (j+1)).all isAtomChar) && decide (j + 3 ≤ d.length))

/-- Matcher for the anchored `emailRegex` of `src/script.js` line 126. -/
def emailRegexMatch (l : List Char) : Bool :=
  match l.dropWhile isAtomChar with
  | [] => false
  | c :: d => c == '@' && !(l.takeWhile isAtomChar).isEmpty && domMatch d

/-! ### urlRegex  (`src/script.js` line 127)

`/^(https?:\/\/)?([\w-]+\.)+[\w-]{2,}(\/\S*)?$/`.

The label class `[\w-]` does not contain the dot or the slash, so inside
the host every label of a successful match is exactly a maximal `[\w-]`
run followed by a literal dot, and the host ends at the first slash (if
any), after which `(\/\S*)?` owns the rest.  The group iteration
`([\w-]+\.)*` is implemented with a fuel argument (the list length bounds
the number of groups, each group consuming at least one character and its
dot), so the function stays structurally recursive and kernel-reducible. -/

/-- Matcher for the anchored `([\w-]+\.)*[\w-]{2,}` tail of the host.
`fuel` only needs to exceed the number of remaining groups; every call
supplies `length + 1`, which always suffices since each group consumes
at least two characters. -/
def hostTailAux : Nat → List Char → Bool
  | 0, _ => false
  | fuel+1, l =>
    match l.drop (l.takeWhile isWordDash).length with
    | [] => decide (2 ≤ (l.takeWhile isWordDash).length)
    | c :: rest => c == '.' && !(l.takeWhile isWordDash).isEmpty &&
        hostTailAux fuel rest

/-- Matcher for the anchored `([\w-]+\.)+[\w-]{2,}` host of `urlRegex`. -/
def hostMatch (l : List Char) : Bool :=
  match l.drop (l.takeWhile isWordDash).length with
  | [] => false
  | c :: rest => c == '.' && !(l.takeWhile isWordDash).isEmpty &&
      hostTailAux (rest.length + 1) rest

/-- Matcher for the anchored `([\w-]+\.)+[\w-]{2,}(\/\S*)?` tail of
`urlRegex` (everything after the optional scheme). -/
def urlTail (l : List Char) : Bool :=
  hostMatch (l.takeWhile (fun c => c != '/')) &&
  ((l.drop (l.takeWhile (fun c => c != '/')).length).tail.all
    (fun c => !(isJsWs c)))

/-- The characters of the literal scheme alternative `http://`. -/
def httpScheme : List Char := ['h', 't', 't', 'p', ':', '/', '/']

/-- The characters of the literal scheme alternative `https://`. -/
def httpsScheme : List Char := ['h', 't', 't', 'p', 's', ':', '/', '/']

/-- Matcher for the anchored `urlRegex` of `src/script.js` line 127. -/
def urlRegexMatch (l : List Char) : Bool :=
  urlTail l ||
  (httpScheme.isPrefixOf l && urlTail (l.drop 7)) ||
  (httpsScheme.isPrefixOf l && urlTail (l.drop 8))

/-! ### passwordRegex  (`src/script.js` line 128)

`/^(?=.*[A-Za-z])(?=.*\d).{8,}$/`: a lookahead demanding a letter after a
`.`-only prefix, a lookahead demanding a digit after a `.`-only prefix,
then at least eight `.` characters up to the end. -/

/-- Matcher for the anchored `passwordRegex` of `src/script.js` line 128. -/
def passwordRegexMatch (l : List Char) : Bool :=
  ((List.range l.length).any (fun i =>
      (l.take i).all isRegexDot && isAsciiLetter (l.getD i ' '))) &&
  ((List.range l.length).any (fun i =>
      (l.take i).all isRegexDot && isDigitChar (l.getD i ' '))) &&
  l.all isRegexDot && decide (8 ≤ l.length)

/-! ### The JS `Number(string)` coercion  (used by `validateAge`,
`src/script.js` line 165)

`Number` on a string trims JS whitespace, maps the empty remainder to 0,
and otherwise parses a StrNumericLiteral: an optionally signed decimal
literal (digits, optional fraction, optional exponent) or the literal
`Infinity`, or an unsigned `0x`/`0o`/`0b` radix literal; anything else is
NaN.  The exact rational value of the literal, kept as an integer
numerator and denominator, is then rounded to the nearest IEEE-754
binary64 value (round to nearest, ties to even, overflow to the signed
infinity), exactly as `Number` produces a double.  Every finite double
is a dyadic rational `m * 2 ^ s` with `|m| < 2 ^ 53` (or `2 ^ 53` after a
carry, which is again representable) and `-1074 ≤ s`; the model carries
that mantissa/exponent pair, so that for example the coercion of
`12.9999999999999999` is exactly 13, as in JS. -/

/-- The result of coercing a JS string to a number: NaN, a signed
infinity, or a finite double carried exactly as a dyadic pair `m`, `s`
with value `m * 2 ^ s`. -/
inductive JSNum where
  | nan : JSNum
  | inf : Bool → JSNum
  | val : ℤ → ℤ → JSNum
deriving DecidableEq

/-- The rational value of the finite double with mantissa `m` and
exponent `s`. -/
def dyadic (m s : ℤ) : ℚ := (m : ℚ) * (2 : ℚ) ^ s

/-- JS truthiness of a number: NaN and zero (of either sign) are falsy,
everything else (including the infinities) is truthy. -/
def jsTruthy : JSNum → Bool
  | .nan => false
  | .inf _ => true
  | .val m _ => !(m == 0)

/-- The JS comparison `v < n` for a number `v` and an integer literal
`n`: false whenever `v` is NaN.  For a finite double the dyadic
comparison `m * 2 ^ s < n` is decided over the integers, clearing the
power of two to whichever side keeps it nonnegative. -/
def jsLtNat (v : JSNum) (n : Nat) : Bool :=
  match v with
  | .nan => false
  | .inf neg => neg
  | .val m s =>
    if 0 ≤ s then decide (m * 2 ^ s.toNat < (n : ℤ))
    else decide (m < (n : ℤ) * 2 ^ (-s).toNat)

/-- The JS comparison `v > n` for a number `v` and an integer literal
`n`: false whenever `v` is NaN. -/
def jsGtNat (v : JSNum) (n : Nat) : Bool :=
  match v with
  | .nan => false
  | .inf neg => !neg
  | .val m s =>
    if 0 ≤ s then decide ((n : ℤ) < m * 2 ^ s.toNat)
    else decide ((n : ℤ) * 2 ^ (-s).toNat < m)

/-- Value of a digit string in base 10. -/
def digitsVal (ds : List Char) : Nat :=
  ds.foldl (fun a c => 10 * a + (c.toNat - 48)) 0

/-- Hexadecimal digit test. -/
def isHexDigitChar (c : Char) : Bool :=
  isDigitChar c ||
  (decide (97 ≤ c.toNat) && decide (c.toNat ≤ 102)) ||
  (decide (65 ≤ c.toNat) && decide (c.toNat ≤ 70))

/-- Value of one hexadecimal digit. -/
def hexDigitVal (c : Char) : Nat :=
  if decide (97 ≤ c.toNat) then c.toNat - 87
  else if decide (65 ≤ c.toNat) then c.toNat - 55
  else c.toNat - 48

/-- Octal digit test. -/
def isOctalDigitChar (c : Char) : Bool :=
  decide (48 ≤ c.toNat) && decide (c.toNat ≤ 55)

/-- Binary digit test. -/
def isBinaryDigitChar (c : Char) : Bool := c == '0' || c == '1'

/-- Number of binary digits of the second argument (0 for 0).  The first
argument is recursion fuel; the number itself always suffices, since a
positive number has no more binary digits than its own value. -/
def bitlenAux : Nat → Nat → Nat
  | 0, _ => 0
  | fuel+1, n => if n = 0 then 0 else bitlenAux fuel (n / 2) + 1

/-- Number of binary digits of `n`. -/
def bitlen (n : Nat) : Nat := bitlenAux n n

/-- The floor of the base-two logarithm of `a / d`, for positive `a` and
`d`: the bit-length difference is off by at most one, and one integer
comparison settles which. -/
def ilog2Rat (a d : Nat) : ℤ :=
  let e0 : ℤ := (bitlen a : ℤ) - (bitlen d : ℤ)
  if 0 ≤ e0 then (if 2 ^ e0.toNat * d ≤ a then e0 else e0 - 1)
  else (if d ≤ 2 ^ (-e0).toNat * a then e0 else e0 - 1)

/-- Round the exact rational `n / d` to the nearest IEEE-754 binary64
value, ties to even.  Magnitudes of at least `2 ^ 1024 - 2 ^ 970` (half
an ulp above the largest finite double, with the tie itself carrying to
`2 ^ 1024`) overflow to the signed infinity; below the least normal
magnitude the quantum stays fixed at `2 ^ (-1074)` (subnormals), and a
mantissa rounded to zero yields a (signed, equally falsy) zero. -/
def roundDouble (n : ℤ) (d : Nat) : JSNum :=
  if d = 0 then .nan
  else if n = 0 then .val 0 0
  else
    let a := n.natAbs
    let neg := decide (n < 0)
    if (2 ^ 1024 - 2 ^ 970) * d ≤ a then .inf neg
    else
      let e := ilog2Rat a d
      let s := max (e - 52) (-1074)
      let bigA := a * 2 ^ (-s).toNat
      let bigD := d * 2 ^ s.toNat
      let q0 := bigA / bigD
      let r := bigA % bigD
      let m := if bigD < 2 * r then q0 + 1
        else if 2 * r < bigD then q0
        else if q0 % 2 = 0 then q0 else q0 + 1
      .val (if neg then -(m : ℤ) else (m : ℤ)) s

/-- Parse an unsigned radix literal body (after `0x`, `0o` or `0b`) and
round its integer value to a double. -/
def parseRadix (b : Nat) (isDig : Char → Bool) (valOf : Char → Nat)
    (ds : List Char) : JSNum :=
  if !ds.isEmpty && ds.all isDig then
    roundDouble ((ds.foldl (fun a c => b * a + valOf c) 0 : Nat) : ℤ) 1
  else .nan

/-- Parse the optional exponent part of a decimal literal and scale the
exact numerator/denominator pair accordingly; the whole remainder must
be consumed. -/
def parseExpTail (r : List Char) (num den : Nat) : Option (Nat × Nat) :=
  match r with
  | [] => some (num, den)
  | c :: r2 =>
    if c == 'e' || c == 'E' then
      let (neg, r3) :=
        match r2 with
        | '+' :: r4 => (false, r4)
        | '-' :: r4 => (true, r4)
        | _ => (false, r2)
      let ds := r3.takeWhile isDigitChar
      if ds.isEmpty || !(r3.drop ds.length).isEmpty then none
      else if neg then some (num, den * 10 ^ digitsVal ds)
      else some (num * 10 ^ digitsVal ds, den)
    else none

/-- Parse an unsigned decimal literal `digits [. digits] [exp]` or
`. digits [exp]` to its exact value as a numerator/denominator pair; the
whole list must be consumed. -/
def parseDec (r : List Char) : Option (Nat × Nat) :=
  let d1 := r.takeWhile isDigitChar
  match r.drop d1.length with
  | [] => if d1.isEmpty then none else some (digitsVal d1, 1)
  | c :: r2 =>
    if c == '.' then
      let d2 := r2.takeWhile isDigitChar
      if d1.isEmpty && d2.isEmpty then none
      else parseExpTail (r2.drop d2.length)
        (digitsVal d1 * 10 ^ d2.length + digitsVal d2) (10 ^ d2.length)
    else if d1.isEmpty then none
    else parseExpTail (r.drop d1.length) (digitsVal d1) 1

/-- The characters of the literal `Infinity`. -/
def infinityChars : List Char := ['I', 'n', 'f', 'i', 'n', 'i', 't', 'y']

/-- Parse an unsigned decimal literal or `Infinity`, apply the sign, and
round to a double. -/
def parseUnsigned (r : List Char) (neg : Bool) : JSNum :=
  if r == infinityChars then .inf neg
  else
    match parseDec r with
    | some p => roundDouble (if neg then -(p.1 : ℤ) else (p.1 : ℤ)) p.2
    | none => .nan

/-- Parse an optionally signed decimal literal or `Infinity`. -/
def parseSigned (t : List Char) : JSNum :=
  match t with
  | '+' :: r => parseUnsigned r false
  | '-' :: r => parseUnsigned r true
  | _ => parseUnsigned t false

/-- The JS `Number(string)` coercion, with IEEE-754 binary64 rounding. -/
def jsStringToNumber (l : List Char) : JSNum :=
  match jsTrim l with
  | [] => .val 0 0
  | '0' :: c :: ds =>
    if c == 'x' || c == 'X' then parseRadix 16 isHexDigitChar hexDigitVal ds
    else if c == 'o' || c == 'O' then
      parseRadix 8 isOctalDigitChar (fun d => d.toNat - 48) ds
    else if c == 'b' || c == 'B' then
      parseRadix 2 isBinaryDigitChar (fun d => d.toNat - 48) ds
    else parseSigned ('0' :: c :: ds)
  | t => parseSigned t

/-! ### The form model  (`src/script.js` lines 114-220)

The seven form controls, their current values, and the DOM error surface:
per field, the text content of its error label and whether the control
carries the `invalid` CSS class.  Each validator reads the current value
and returns its boolean together with the updated DOM surface, exactly
mirroring the side effects of the script. -/

/-- The seven form controls of the signup form. -/
inductive FieldId where
  | name | email | password | confirm | age | website | terms
deriving DecidableEq, Fintype, Repr

/-- The current values of the form controls.  The six text controls hold
strings; the terms checkbox holds its checked flag. -/
structure FormInput where
  name : List Char
  email : List Char
  password : List Char
  confirm : List Char
  age : List Char
  website : List Char
  terms : Bool

/-- The DOM error surface: the text of each error label and whether each
control carries the `invalid` class. -/
structure DomState where
  errText : FieldId → String
  invalid : FieldId → Bool

/-- The DOM surface with no error text and no `invalid` markers. -/
def domClear : DomState := { errText := fun _ => "", invalid := fun _ => false }

/-- `showError(el, message)` of `src/script.js` lines 130-134: set the
error label of the field and add the `invalid` class to it. -/
def showError (st : DomState) (f : FieldId) (m : String) : DomState :=
  { errText := fun g => if g = f then m else st.errText g,
    invalid := fun g => if g = f then true else st.invalid g }

/-- `clearError(el)` of `src/script.js` lines 135-139: empty the error
label of the field and remove the `invalid` class from it. -/
def clearError (st : DomState) (f : FieldId) : DomState :=
  { errText := fun g => if g = f then "" else st.errText g,
    invalid := fun g => if g = f then false else st.invalid g }

/-- A bare `textContent` assignment on the error label of a field, as
`validateTerms` performs directly (without touching any class). -/
def setText (st : DomState) (f : FieldId) (m : String) : DomState :=
  { st with errText := fun g => if g = f then m else st.errText g }

/-- Error message of `validateName`. -/
def nameMsg : String := "Please enter your full name (at least 2 characters)."

/-- Error message of `validateEmail`. -/
def emailMsg : String := "Please enter a valid email address."

/-- Error message of `validatePassword`. -/
def passwordMsg : String :=
  "Password must be 8+ characters and include letters and numbers."

/-- Error message of `validateConfirm`. -/
def confirmMsg : String := "Passwords do not match."

/-- Error message of `validateAge`. -/
def ageMsg : String := "Enter a valid age (13 - 120)."

/-- Error message of `validateWebsite`. -/
def websiteMsg : String := "Please enter a valid URL (or leave blank)."

/-- Error message of `validateTerms`. -/
def termsMsg : String := "You must accept the terms."

/-- `validateName` of `src/script.js` lines 141-145. -/
def validateName (inp : FormInput) (st : DomState) : Bool × DomState :=
  let v := jsTrim inp.name
  if v.length < 2 then (false, showError st FieldId.name nameMsg)
  else (true, clearError st FieldId.name)

/-- `validateEmail` of `src/script.js` lines 147-151. -/
def validateEmail (inp : FormInput) (st : DomState) : Bool × DomState :=
  let v := jsTrim inp.email
  if !emailRegexMatch v then (false, showError st FieldId.email emailMsg)
  else (true, clearError st FieldId.email)

/-- `validatePassword` of `src/script.js` lines 153-157 (note: the raw
value, not trimmed). -/
def validatePassword (inp : FormInput) (st : DomState) : Bool × DomState :=
  if !passwordRegexMatch inp.password then
    (false, showError st FieldId.password passwordMsg)
  else (true, clearError st FieldId.password)

/-- `validateConfirm` of `src/script.js` lines 159-162: strict equality
of the two raw values, read fresh at validation time. -/
def validateConfirm (inp : FormInput) (st : DomState) : Bool × DomState :=
  if !(inp.confirm == inp.password) then
    (false, showError st FieldId.confirm confirmMsg)
  else (true, clearError st FieldId.confirm)

/-- `validateAge` of `src/script.js` lines 164-168:
`const v = Number(ageInput.value); if (!v || v < 13 || v > 120) ...`. -/
def validateAge (inp : FormInput) (st : DomState) : Bool × DomState :=
  let v := jsStringToNumber inp.age
  if !(jsTruthy v) || jsLtNat v 13 || jsGtNat v 120 then
    (false, showError st FieldId.age ageMsg)
  else (true, clearError st FieldId.age)

/-- `validateWebsite` of `src/script.js` lines 170-175: the field is
optional, an empty trimmed value passes without touching the regex. -/
def validateWebsite (inp : FormInput) (st : DomState) : Bool × DomState :=
  let v := jsTrim inp.website
  if v == [] then (true, clearError st FieldId.website)
  else if !urlRegexMatch v then (false, showError st FieldId.website websiteMsg)
  else (true, clearError st FieldId.website)

/-- `validateTerms` of `src/script.js` lines 177-181: it assigns the
error label text directly and never touches the `invalid` class. -/
def validateTerms (inp : FormInput) (st : DomState) : Bool × DomState :=
  if !inp.terms then (false, setText st FieldId.terms termsMsg)
  else (true, setText st FieldId.terms "")

/-- Dispatch from a field to its validator. -/
def runValidator : FieldId → FormInput → DomState → Bool × DomState
  | .name => validateName
  | .email => validateEmail
  | .password => validatePassword
  | .confirm => validateConfirm
  | .age => validateAge
  | .website => validateWebsite
  | .terms => validateTerms

/-- The aggregate pass of the submit handler, `src/script.js` lines
196-204: the array literal invokes all seven validators in order (no
short-circuiting), then `.every(v => v === true)` conjoins the results. -/
def validateAll (inp : FormInput) (st : DomState) : Bool × DomState :=
  let p1 := validateName inp st
  let p2 := validateEmail inp p1.2
  let p3 := validatePassword inp p2.2
  let p4 := validateConfirm inp p3.2
  let p5 := validateAge inp p4.2
  let p6 := validateWebsite inp p5.2
  let p7 := validateTerms inp p6.2
  (p1.1 && p2.1 && p3.1 && p4.1 && p5.1 && p6.1 && p7.1, p7.2)

/-- The success message written to `#form-success`. -/
def successMsg : String := "Form is valid! ✅ — Thanks for signing up."

/-- Modelled from the spec: the HTML page itself is not under `src/`, so
the document order of the form controls is taken from section 6 of the
spec, which lists the fields as name, email, password, confirm-password,
age, website, terms.  `document.querySelector(".invalid")` returns the
first element in this order that carries the `invalid` class (these
controls are the only elements the script ever gives that class). -/
def docOrder : List FieldId :=
  [FieldId.name, FieldId.email, FieldId.password, FieldId.confirm,
   FieldId.age, FieldId.website, FieldId.terms]

/-- Position of a field in the document order. -/
def docIdx : FieldId → Nat
  | .name => 0
  | .email => 1
  | .password => 2
  | .confirm => 3
  | .age => 4
  | .website => 5
  | .terms => 6

/-- Observable outcome of one firing of the submit handler. -/
structure SubmitResult where
  prevented : Bool
  success : String
  didReset : Bool
  dom : DomState
  focused : Option FieldId

/-- The submit handler of `src/script.js` lines 192-220:
`preventDefault` always runs, the success box is cleared, the aggregate
pass runs; on success the success message is shown, the form is reset and
every `invalid` class is removed; on failure focus moves to the first
element carrying the `invalid` class, if any. -/
def submitHandler (inp : FormInput) (st : DomState) : SubmitResult :=
  let r := validateAll inp st
  if r.1 then
    { prevented := true, success := successMsg, didReset := true,
      dom := { r.2 with invalid := fun _ => false }, focused := none }
  else
    { prevented := true, success := "", didReset := false, dom := r.2,
      focused := docOrder.find? (fun f => r.2.invalid f) }

/-! ### Pure per-field validity

Each validator computes its boolean from the input values alone; these
definitions restate those booleans without the DOM side effects, and the
equation lemmas below tie each validator to its pure boolean and its
localized state update. -/

/-- Pure validity of the name field: trimmed length at least 2. -/
def nameValid (inp : FormInput) : Bool :=
  !decide ((jsTrim inp.name).length < 2)

/-- Pure validity of the email field. -/
def emailValid (inp : FormInput) : Bool := emailRegexMatch (jsTrim inp.email)

/-- Pure validity of the password field (raw value). -/
def passwordValid (inp : FormInput) : Bool := passwordRegexMatch inp.password

/-- Pure validity of the confirm field: raw equality with the current
password value. -/
def confirmValid (inp : FormInput) : Bool := inp.confirm == inp.password

/-- Pure validity of the age field. -/
def ageValid (inp : FormInput) : Bool :=
  let v := jsStringToNumber inp.age
  !(!(jsTruthy v) || jsLtNat v 13 || jsGtNat v 120)

/-- Pure validity of the website field (optional). -/
def websiteValid (inp : FormInput) : Bool :=
  if jsTrim inp.website == [] then true
  else urlRegexMatch (jsTrim inp.website)

/-- Pure validity of the terms checkbox. -/
def termsValid (inp : FormInput) : Bool := inp.terms

/-- Dispatch from a field to its pure validity. -/
def fieldValid : FieldId → FormInput → Bool
  | .name => nameValid
  | .email => emailValid
  | .password => passwordValid
  | .confirm => confirmValid
  | .age => ageValid
  | .website => websiteValid
  | .terms => termsValid

/-- Dispatch from a field to its failure message. -/
def fieldMsg : FieldId → String
  | .name => nameMsg
  | .email => emailMsg
  | .password => passwordMsg
  | .confirm => confirmMsg
  | .age => ageMsg
  | .website => websiteMsg
  | .terms => termsMsg

/-- Conjunction of the seven pure validities. -/
def allValidPure (inp : FormInput) : Bool :=
  nameValid inp && emailValid inp && passwordValid inp && confirmValid inp &&
  ageValid inp && websiteValid inp && termsValid inp

@[simp]
theorem errText_showError (st : DomState) (f : FieldId) (m : String)
    (g : FieldId) :
    (showError st f m).errText g = if g = f then m else st.errText g := rfl

@[simp]
theorem invalid_showError (st : DomState) (f : FieldId) (m : String)
    (g : FieldId) :
    (showError st f m).invalid g = if g = f then true else st.invalid g := rfl

@[simp]
theorem errText_clearError (st : DomState) (f : FieldId) (g : FieldId) :
    (clearError st f).errText g = if g = f then "" else st.errText g := rfl

@[simp]
theorem invalid_clearError (st : DomState) (f : FieldId) (g : FieldId) :
    (clearError st f).invalid g = if g = f then false else st.invalid g := rfl

@[simp]
theorem errText_setText (st : DomState) (f : FieldId) (m : String)
    (g : FieldId) :
    (setText st f m).errText g = if g = f then m else st.errText g := rfl

@[simp]
theorem invalid_setText (st : DomState) (f : FieldId) (m : String)
    (g : FieldId) : (setText st f m).invalid g = st.invalid g := rfl

@[simp]
theorem errText_ite (c : Prop) [Decidable c] (a b : DomState) (g : FieldId) :
    (if c then a else b).errText g =
      if c then a.errText g else b.errText g := by
  split <;> rfl

@[simp]
theorem invalid_ite (c : Prop) [Decidable c] (a b : DomState) (g : FieldId) :
    (if c then a else b).invalid g =
      if c then a.invalid g else b.invalid g := by
  split <;> rfl

theorem validateName_eq (inp : FormInput) (st : DomState) :
    validateName inp st =
      (nameValid inp,
       if nameValid inp then clearError st FieldId.name
       else showError st FieldId.name nameMsg) := by
  by_cases h : (jsTrim inp.name).length < 2 <;>
    simp [validateName, nameValid, h]

theorem validateEmail_eq (inp : FormInput) (st : DomState) :
    validateEmail inp st =
      (emailValid inp,
       if emailValid inp then clearError st FieldId.email
       else showError st FieldId.email emailMsg) := by
  cases h : emailRegexMatch (jsTrim inp.email) <;>
    simp [validateEmail, emailValid, h]

theorem validatePassword_eq (inp : FormInput) (st : DomState) :
    validatePassword inp st =
      (passwordValid inp,
       if passwordValid inp then clearError st FieldId.password
       else showError st FieldId.password passwordMsg) := by
  cases h : passwordRegexMatch inp.password <;>
    simp [validatePassword, passwordValid, h]

theorem validateConfirm_eq (inp : FormInput) (st : DomState) :
    validateConfirm inp st =
      (confirmValid inp,
       if confirmValid inp then clearError st FieldId.confirm
       else showError st FieldId.confirm confirmMsg) := by
  cases h : inp.confirm == inp.password <;>
    simp [validateConfirm, confirmValid, h]

theorem validateAge_eq (inp : FormInput) (st : DomState) :
    validateAge inp st =
      (ageValid inp,
       if ageValid inp then clearError st FieldId.age
       else showError st FieldId.age ageMsg) := by
  cases h : !(jsTruthy (jsStringToNumber inp.age)) ||
      jsLtNat (jsStringToNumber inp.age) 13 ||
      jsGtNat (jsStringToNumber inp.age) 120 <;>
    simp [validateAge, ageValid, h]

theorem validateWebsite_eq (inp : FormInput) (st : DomState) :
    validateWebsite inp st =
      (websiteValid inp,
       if websiteValid inp then clearError st FieldId.website
       else showError st FieldId.website websiteMsg) := by
  by_cases h : jsTrim inp.website == []
  · simp [validateWebsite, websiteValid, h]
  · cases hu : urlRegexMatch (jsTrim inp.website) <;>
      simp [validateWebsite, websiteValid, h, hu]

theorem validateTerms_eq (inp : FormInput) (st : DomState) :
    validateTerms inp st =
      (termsValid inp,
       setText st FieldId.terms (if termsValid inp then "" else termsMsg)) := by
  cases h : inp.terms <;> simp [validateTerms, termsValid, h]

theorem validateAll_fst (inp : FormInput) (st : DomState) :
    (validateAll inp st).1 = allValidPure inp := by
  simp [validateAll, allValidPure, validateName_eq, validateEmail_eq,
    validatePassword_eq, validateConfirm_eq, validateAge_eq,
    validateWebsite_eq, validateTerms_eq]

theorem validateAll_errText (inp : FormInput) (st : DomState) (g : FieldId) :
    ((validateAll inp st).2).errText g =
      if fieldValid g inp then "" else fieldMsg g := by
  cases g <;>
    simp [validateAll, validateName_eq, validateEmail_eq, validatePassword_eq,
      validateConfirm_eq, validateAge_eq, validateWebsite_eq,
      validateTerms_eq, fieldValid, fieldMsg]

theorem validateAll_invalid (inp : FormInput) (st : DomState) (g : FieldId) :
    ((validateAll inp st).2).invalid g =
      if g = FieldId.terms then st.invalid g else !fieldValid g inp := by
  cases g <;>
    simp [validateAll, validateName_eq, validateEmail_eq, validatePassword_eq,
      validateConfirm_eq, validateAge_eq, validateWebsite_eq,
      validateTerms_eq, fieldValid]

set_option maxRecDepth 4096 in
/-- `List.find?` over the document order returns the first field (in
document order) satisfying the predicate, and `none` exactly when no
field satisfies it.  Stated over all 2^7 marker configurations and
settled by evaluation. -/
theorem find?_docOrder_spec (P : FieldId → Bool) :
    ((∃ f, P f = true) →
      ∃ f, docOrder.find? P = some f ∧ P f = true ∧
        ∀ g, docIdx g < docIdx f → P g = false) ∧
    ((∀ f, P f = false) → docOrder.find? P = none) := by
  revert P; decide

/-- Two DOM states with the same error texts and the same markers are
equal. -/
@[ext]
theorem DomState.extEq (a b : DomState)
    (h1 : ∀ g, a.errText g = b.errText g)
    (h2 : ∀ g, a.invalid g = b.invalid g) : a = b := by
  cases a; cases b
  simp only [DomState.mk.injEq]
  exact ⟨funext h1, funext h2⟩

theorem showError_idem (st : DomState) (f : FieldId) (m : String) :
    showError (showError st f m) f m = showError st f m := by
  apply DomState.extEq <;> intro g <;> by_cases h : g = f <;> simp [h]

theorem clearError_idem (st : DomState) (f : FieldId) :
    clearError (clearError st f) f = clearError st f := by
  apply DomState.extEq <;> intro g <;> by_cases h : g = f <;> simp [h]

theorem setText_idem (st : DomState) (f : FieldId) (m : String) :
    setText (setText st f m) f m = setText st f m := by
  apply DomState.extEq <;> intro g <;> by_cases h : g = f <;> simp [h]

/-- A fully valid form input: every one of the seven validators accepts
it (used as the base point of the witnesses and counterexamples). -/
def goodInput : FormInput :=
  { name := "Ann".toList, email := "a@b.co".toList,
    password := "abcd1234".toList, confirm := "abcd1234".toList,
    age := "20".toList, website := [], terms := true }

/-- The form input with every text field empty and the checkbox
unchecked. -/
def emptyInput : FormInput :=
  { name := [], email := [], password := [], confirm := [], age := [],
    website := [], terms := false }

/-- Claim C7: every individual validator is idempotent: run twice on the
same input, the second run returns the same boolean and leaves the error
text and the invalid marker exactly as the first run left them. -/
theorem validator_idempotent (f : FieldId) (inp : FormInput) (st : DomState) :
    runValidator f inp ((runValidator f inp st).2) = runValidator f inp st := by
  cases f
  · simp only [runValidator, validateName_eq]
    cases hv : nameValid inp <;> simp [showError_idem, clearError_idem]
  · simp only [runValidator, validateEmail_eq]
    cases hv : emailValid inp <;> simp [showError_idem, clearError_idem]
  · simp only [runValidator, validatePassword_eq]
    cases hv : passwordValid inp <;> simp [showError_idem, clearError_idem]
  · simp only [runValidator, validateConfirm_eq]
    cases hv : confirmValid inp <;> simp [showError_idem, clearError_idem]
  · simp only [runValidator, validateAge_eq]
    cases hv : ageValid inp <;> simp [showError_idem, clearError_idem]
  · simp only [runValidator, validateWebsite_eq]
    cases hv : websiteValid inp <;> simp [showError_idem, clearError_idem]
  · simp only [runValidator, validateTerms_eq]
    simp [setText_idem]

/-- Claim C2 (amended): after any validator runs, the error text of its
field agrees with the outcome (failure message on failure, empty on
success); the six input validators also keep the invalid marker in sync
with the outcome, while the terms validator never touches the invalid
marker of the checkbox. -/
theorem validator_display_sync (f : FieldId) (inp : FormInput) (st : DomState) :
    ((runValidator f inp st).2).errText f =
      (if (runValidator f inp st).1 then "" else fieldMsg f) ∧
    (f ≠ FieldId.terms →
      ((runValidator f inp st).2).invalid f = !(runValidator f inp st).1) ∧
    (f = FieldId.terms →
      ((runValidator f inp st).2).invalid f = st.invalid f) := by
  cases f <;>
    simp [runValidator, validateName_eq, validateEmail_eq, validatePassword_eq,
      validateConfirm_eq, validateAge_eq, validateWebsite_eq, validateTerms_eq,
      fieldMsg, apply_ite] <;>
    split <;> simp_all

/-- Witness for claim C2: the sync theorem applied to the email field on
the empty input (discharging the non-terms hypothesis) and to the terms
field (discharging the terms hypothesis). -/
theorem validator_display_sync_witness :
    ((runValidator FieldId.email emptyInput domClear).2).invalid
      FieldId.email = !(runValidator FieldId.email emptyInput domClear).1 ∧
    ((runValidator FieldId.terms emptyInput domClear).2).invalid
      FieldId.terms = domClear.invalid FieldId.terms :=
  ⟨(validator_display_sync FieldId.email emptyInput domClear).2.1 (by decide),
   (validator_display_sync FieldId.terms emptyInput domClear).2.2 rfl⟩

/-- Counterexample for claim C2 as stated: on the unchecked terms
checkbox the validator fails and sets the error text, but never adds the
invalid marker to the checkbox — the claim asserts the marker is set for
every field, including the terms checkbox. -/
theorem terms_marker_counterexample :
    (validateTerms emptyInput domClear).1 = false ∧
    ((validateTerms emptyInput domClear).2).errText FieldId.terms = termsMsg ∧
    ((validateTerms emptyInput domClear).2).invalid FieldId.terms = false := by
  decide

/-- Claim C3: the aggregate pass returns true exactly when all seven
pure validities hold, and — because it never short-circuits — the error
text of every field (and the invalid marker of every input field) is
refreshed to reflect that field's own outcome, whatever the other fields
did. -/
theorem validateAll_complete (inp : FormInput) (st : DomState) :
    ((validateAll inp st).1 = true ↔
      nameValid inp = true ∧ emailValid inp = true ∧
      passwordValid inp = true ∧ confirmValid inp = true ∧
      ageValid inp = true ∧ websiteValid inp = true ∧
      termsValid inp = true) ∧
    (∀ g, ((validateAll inp st).2).errText g =
      if fieldValid g inp then "" else fieldMsg g) ∧
    (∀ g, g ≠ FieldId.terms →
      ((validateAll inp st).2).invalid g = !fieldValid g inp) := by
  refine ⟨?_, fun g => validateAll_errText inp st g, fun g hg => ?_⟩
  · rw [validateAll_fst]
    simp [allValidPure, Bool.and_eq_true, and_assoc]
  · rw [validateAll_invalid]
    simp [hg]

/-- Witness for claim C3: on the fully valid input the aggregate pass
returns true (the equivalence applied at `goodInput`), and on the empty
input the name marker reflects the name validity (the per-field refresh
conjunct with its non-terms hypothesis discharged). -/
theorem validateAll_complete_witness :
    (validateAll goodInput domClear).1 = true ∧
    ((validateAll emptyInput domClear).2).invalid FieldId.name =
      !fieldValid FieldId.name emptyInput :=
  ⟨(validateAll_complete goodInput domClear).1.mpr (by decide),
   (validateAll_complete emptyInput domClear).2.2 FieldId.name (by decide)⟩

/-- Counterexample for claim C4 as stated: when the terms checkbox is the
only invalid field, validation fails but no element carries the invalid
marker (the terms validator never sets it), so `querySelector(".invalid")`
finds nothing and focus does not move anywhere. -/
theorem submit_focus_counterexample :
    (validateAll { goodInput with terms := false } domClear).1 = false ∧
    (∀ f, ((submitHandler { goodInput with terms := false } domClear).dom).invalid
      f = false) ∧
    (submitHandler { goodInput with terms := false } domClear).focused = none := by
  refine ⟨by decide, ?_, ?_⟩ <;> decide

/-- Claim C4 (amended): on submit the default submission is always
suppressed; if the aggregate pass succeeds, the success message is shown,
the form is reset and every invalid marker is removed; if it fails, focus
moves to the first field in document order that carries the invalid
marker when one exists, and does not move at all when no field is marked
(which happens exactly when the terms checkbox is the only invalid
field). -/
theorem submit_protocol (inp : FormInput) (st : DomState) :
    (submitHandler inp st).prevented = true ∧
    ((validateAll inp st).1 = true →
      (submitHandler inp st).success = successMsg ∧
      (submitHandler inp st).didReset = true ∧
      ∀ f, ((submitHandler inp st).dom).invalid f = false) ∧
    ((validateAll inp st).1 = false →
      (submitHandler inp st).success = "" ∧
      (submitHandler inp st).didReset = false ∧
      ((∃ f, ((submitHandler inp st).dom).invalid f = true) →
        ∃ f, (submitHandler inp st).focused = some f ∧
          ((submitHandler inp st).dom).invalid f = true ∧
          ∀ g, docIdx g < docIdx f →
            ((submitHandler inp st).dom).invalid g = false) ∧
      ((∀ f, ((submitHandler inp st).dom).invalid f = false) →
        (submitHandler inp st).focused = none)) := by
  cases hv : (validateAll inp st).1 <;>
    simp only [submitHandler, hv, Bool.false_eq_true, if_false, if_true]
  · refine ⟨trivial, by simp, fun _ => ⟨trivial, trivial, ?_, ?_⟩⟩
    · exact (find?_docOrder_spec (fun f => ((validateAll inp st).2).invalid f)).1
    · exact (find?_docOrder_spec (fun f => ((validateAll inp st).2).invalid f)).2
  · refine ⟨trivial, fun _ => ⟨trivial, trivial, fun f => trivial⟩, by simp⟩

/-- Witness for claim C4: the protocol theorem applied with each of its
hypotheses discharged concretely — failure on the empty input gives no
success message and a focused first-invalid field, success on the fully
valid input gives the success message. -/
theorem submit_protocol_witness :
    (submitHandler emptyInput domClear).prevented = true ∧
    (submitHandler emptyInput domClear).success = "" ∧
    (submitHandler goodInput domClear).success = successMsg ∧
    (∃ f, (submitHandler emptyInput domClear).focused = some f ∧
      ((submitHandler emptyInput domClear).dom).invalid f = true ∧
      ∀ g, docIdx g < docIdx f →
        ((submitHandler emptyInput domClear).dom).invalid g = false) :=
  ⟨(submit_protocol emptyInput domClear).1,
   ((submit_protocol emptyInput domClear).2.2 (by decide)).1,
   ((submit_protocol goodInput domClear).2.1 (by decide)).1,
   ((submit_protocol emptyInput domClear).2.2 (by decide)).2.2.1
     ⟨FieldId.name, by decide⟩⟩

/-- An input whose only nonempty content is the age string. -/
def ageInput (s : List Char) : FormInput := { emptyInput with age := s }

/-- A finite double is zero exactly when its mantissa is zero. -/
theorem dyadic_eq_zero_iff (m s : ℤ) : dyadic m s = 0 ↔ m = 0 := by
  constructor
  · intro h
    rcases mul_eq_zero.mp h with h1 | h2
    · exact_mod_cast h1
    · exact absurd h2 (zpow_ne_zero s (by norm_num))
  · rintro rfl
    simp [dyadic]

/-- The integer comparison inside `jsLtNat` decides the rational
comparison of the dyadic value with the literal. -/
theorem jsLtNat_val_iff (m s : ℤ) (n : ℕ) :
    jsLtNat (JSNum.val m s) n = true ↔ dyadic m s < (n : ℚ) := by
  unfold jsLtNat dyadic
  by_cases hs : 0 ≤ s
  · simp only [hs, if_true, decide_eq_true_eq]
    have h2 : (2 : ℚ) ^ s = (2 : ℚ) ^ (s.toNat : ℕ) := by
      have hsv : s = ((s.toNat : ℕ) : ℤ) := by omega
      conv_lhs => rw [hsv, zpow_natCast]
    rw [h2,
      show ((m : ℚ) * 2 ^ s.toNat) = ((m * 2 ^ s.toNat : ℤ) : ℚ) by
        push_cast; ring,
      show ((n : ℚ)) = ((n : ℤ) : ℚ) by push_cast; ring]
    exact Int.cast_lt.symm
  · simp only [hs, if_false, decide_eq_true_eq]
    have h2 : (2 : ℚ) ^ s = ((2 : ℚ) ^ ((-s).toNat : ℕ))⁻¹ := by
      have hsv : s = -(((-s).toNat : ℕ) : ℤ) := by omega
      conv_lhs => rw [hsv, zpow_neg, zpow_natCast]
    rw [h2, ← div_eq_mul_inv,
      div_lt_iff₀ (by positivity : (0 : ℚ) < 2 ^ (-s).toNat),
      show ((n : ℚ) * 2 ^ (-s).toNat) = (((n : ℤ) * 2 ^ (-s).toNat : ℤ) : ℚ)
        by push_cast; ring,
      show ((m : ℚ)) = ((m : ℤ) : ℚ) by ring]
    exact Int.cast_lt.symm

/-- The integer comparison inside `jsGtNat` decides the rational
comparison of the dyadic value with the literal. -/
theorem jsGtNat_val_iff (m s : ℤ) (n : ℕ) :
    jsGtNat (JSNum.val m s) n = true ↔ (n : ℚ) < dyadic m s := by
  unfold jsGtNat dyadic
  by_cases hs : 0 ≤ s
  · simp only [hs, if_true, decide_eq_true_eq]
    have h2 : (2 : ℚ) ^ s = (2 : ℚ) ^ (s.toNat : ℕ) := by
      have hsv : s = ((s.toNat : ℕ) : ℤ) := by omega
      conv_lhs => rw [hsv, zpow_natCast]
    rw [h2,
      show ((m : ℚ) * 2 ^ s.toNat) = ((m * 2 ^ s.toNat : ℤ) : ℚ) by
        push_cast; ring,
      show ((n : ℚ)) = ((n : ℤ) : ℚ) by push_cast; ring]
    exact Int.cast_lt.symm
  · simp only [hs, if_false, decide_eq_true_eq]
    have h2 : (2 : ℚ) ^ s = ((2 : ℚ) ^ ((-s).toNat : ℕ))⁻¹ := by
      have hsv : s = -(((-s).toNat : ℕ) : ℤ) := by omega
      conv_lhs => rw [hsv, zpow_neg, zpow_natCast]
    rw [h2, ← div_eq_mul_inv,
      lt_div_iff₀ (by positivity : (0 : ℚ) < 2 ^ (-s).toNat),
      show ((n : ℚ) * 2 ^ (-s).toNat) = (((n : ℤ) * 2 ^ (-s).toNat : ℤ) : ℚ)
        by push_cast; ring,
      show ((m : ℚ)) = ((m : ℤ) : ℚ) by ring]
    exact Int.cast_lt.symm

/-- `ageValid` unpacked into its three boolean conjuncts. -/
theorem ageValid_iff (inp : FormInput) :
    ageValid inp = true ↔
      (jsTruthy (jsStringToNumber inp.age) = true ∧
       jsLtNat (jsStringToNumber inp.age) 13 = false ∧
       jsGtNat (jsStringToNumber inp.age) 120 = false) := by
  cases hT : jsTruthy (jsStringToNumber inp.age) <;>
    cases hL : jsLtNat (jsStringToNumber inp.age) 13 <;>
    cases hG : jsGtNat (jsStringToNumber inp.age) 120 <;>
    simp [ageValid, hT, hL, hG]

/-- Claim C5: `validateAge` coerces the input string to a double and
accepts exactly the non-NaN, nonzero values between 13 and 120
inclusive; the listed example strings behave as stated, empty,
non-numeric and zero inputs all fail through the same falsy/NaN check,
and the coercion rounds like JS, so the 17-nines string below is
exactly 13 and accepted. -/
theorem validateAge_characterization (inp : FormInput) (st : DomState) :
    ((validateAge inp st).1 = true ↔
      ∃ m s : ℤ, jsStringToNumber inp.age = JSNum.val m s ∧
        ¬ dyadic m s = 0 ∧ 13 ≤ dyadic m s ∧ dyadic m s ≤ 120) ∧
    (validateAge (ageInput ( "13".toList )) st).1 = true ∧
    (validateAge (ageInput ( "120".toList )) st).1 = true ∧
    (validateAge (ageInput ( "12".toList )) st).1 = false ∧
    (validateAge (ageInput ( "121".toList )) st).1 = false ∧
    (validateAge (ageInput [] ) st).1 = false ∧
    (validateAge (ageInput ( "abc".toList )) st).1 = false ∧
    (validateAge (ageInput ( "0".toList )) st).1 = false ∧
    (validateAge (ageInput ( "12.9999999999999999".toList )) st).1 = true := by
  refine ⟨?_, ?_, ?_, ?_, ?_, ?_, ?_, ?_, ?_⟩ <;>
    rw [validateAge_eq] <;> simp only []
  · rw [ageValid_iff]
    cases hn : jsStringToNumber inp.age with
    | nan => simp [jsTruthy]
    | inf neg => cases neg <;> simp [jsTruthy, jsLtNat, jsGtNat]
    | val m s =>
      constructor
      · rintro ⟨hT, hL, hG⟩
        refine ⟨m, s, rfl, ?_, ?_, ?_⟩
        · simp only [jsTruthy, Bool.not_eq_true', beq_eq_false_iff_ne] at hT
          exact fun hc => hT ((dyadic_eq_zero_iff m s).mp hc)
        · refine not_lt.mp (fun hc => ?_)
          rw [(jsLtNat_val_iff m s 13).mpr hc] at hL
          simp at hL
        · refine not_lt.mp (fun hc => ?_)
          rw [(jsGtNat_val_iff m s 120).mpr hc] at hG
          simp at hG
      · rintro ⟨m2, s2, hval, h0, h13, h120⟩
        injection hval with hm hs
        subst hm
        subst hs
        refine ⟨?_, ?_, ?_⟩
        · simp only [jsTruthy, Bool.not_eq_true', beq_eq_false_iff_ne]
          exact fun hm0 => h0 ((dyadic_eq_zero_iff m s).mpr hm0)
        · cases hLv : jsLtNat (JSNum.val m s) 13
          · rfl
          · exact absurd ((jsLtNat_val_iff m s 13).mp hLv) (not_lt.mpr h13)
        · cases hGv : jsGtNat (JSNum.val m s) 120
          · rfl
          · exact absurd ((jsGtNat_val_iff m s 120).mp hGv) (not_lt.mpr h120)
  all_goals decide

/-- Witness for claim C5: the equivalence applied at the age string 42
(its validator outcome discharged by evaluation) produces the dyadic
double and its bounds. -/
theorem validateAge_characterization_witness :
    ∃ m s : ℤ,
      jsStringToNumber (ageInput ( "42".toList )).age = JSNum.val m s ∧
      ¬ dyadic m s = 0 ∧ 13 ≤ dyadic m s ∧ dyadic m s ≤ 120 :=
  (validateAge_characterization (ageInput ( "42".toList )) domClear).1.mp
    (by decide)

/-- Claim C10: `validateConfirm` accepts exactly when the two raw values
agree, imposing no non-emptiness of its own: with both password and
confirm empty it accepts and clears the confirm error, even though
`validatePassword` rejects the empty password. -/
theorem validateConfirm_no_own_requirement (inp : FormInput) (st : DomState) :
    ((validateConfirm inp st).1 = true ↔ inp.confirm = inp.password) ∧
    (validateConfirm emptyInput st).1 = true ∧
    ((validateConfirm emptyInput st).2).errText FieldId.confirm = "" ∧
    (validatePassword emptyInput st).1 = false := by
  refine ⟨?_, ?_, ?_, ?_⟩
  · rw [validateConfirm_eq]
    simp [confirmValid]
  · rw [validateConfirm_eq]
    simp [confirmValid, emptyInput]
  · rw [validateConfirm_eq]
    simp [confirmValid, emptyInput]
  · rw [validatePassword_eq]
    simp only []
    decide

/-- Counterexample for claim C6 as stated: starting from the fully valid
input, flipping the password to an invalid value also flips the
confirm field's validity (its validator compares against the current
password value), so not every other field's validity is unaffected. -/
theorem flip_password_counterexample :
    allValidPure goodInput = true ∧
    passwordValid { goodInput with password := "short".toList } = false ∧
    confirmValid goodInput = true ∧
    confirmValid { goodInput with password := "short".toList } = false := by
  refine ⟨by decide, by decide, by decide, by decide⟩

/-- Claim C6 (amended): from a fully valid input, flipping any single
field other than the password to an invalid value makes the aggregate
validity false and leaves every other field's validity unchanged;
flipping the password to an invalid value makes the aggregate false,
leaves the five fields other than confirm unchanged, and also makes the
confirm field invalid, since its validator compares against the current
password. -/
theorem flip_independence (inp : FormInput) (h : allValidPure inp = true) :
    (∀ v, nameValid { inp with name := v } = false →
      allValidPure { inp with name := v } = false ∧
      emailValid { inp with name := v } = emailValid inp ∧
      passwordValid { inp with name := v } = passwordValid inp ∧
      confirmValid { inp with name := v } = confirmValid inp ∧
      ageValid { inp with name := v } = ageValid inp ∧
      websiteValid { inp with name := v } = websiteValid inp ∧
      termsValid { inp with name := v } = termsValid inp) ∧
    (∀ v, emailValid { inp with email := v } = false →
      allValidPure { inp with email := v } = false ∧
      nameValid { inp with email := v } = nameValid inp ∧
      passwordValid { inp with email := v } = passwordValid inp ∧
      confirmValid { inp with email := v } = confirmValid inp ∧
      ageValid { inp with email := v } = ageValid inp ∧
      websiteValid { inp with email := v } = websiteValid inp ∧
      termsValid { inp with email := v } = termsValid inp) ∧
    (∀ v, confirmValid { inp with confirm := v } = false →
      allValidPure { inp with confirm := v } = false ∧
      nameValid { inp with confirm := v } = nameValid inp ∧
      emailValid { inp with confirm := v } = emailValid inp ∧
      passwordValid { inp with confirm := v } = passwordValid inp ∧
      ageValid { inp with confirm := v } = ageValid inp ∧
      websiteValid { inp with confirm := v } = websiteValid inp ∧
      termsValid { inp with confirm := v } = termsValid inp) ∧
    (∀ v, ageValid { inp with age := v } = false →
      allValidPure { inp with age := v } = false ∧
      nameValid { inp with age := v } = nameValid inp ∧
      emailValid { inp with age := v } = emailValid inp ∧
      passwordValid { inp with age := v } = passwordValid inp ∧
      confirmValid { inp with age := v } = confirmValid inp ∧
      websiteValid { inp with age := v } = websiteValid inp ∧
      termsValid { inp with age := v } = termsValid inp) ∧
    (∀ v, websiteValid { inp with website := v } = false →
      allValidPure { inp with website := v } = false ∧
      nameValid { inp with website := v } = nameValid inp ∧
      emailValid { inp with website := v } = emailValid inp ∧
      passwordValid { inp with website := v } = passwordValid inp ∧
      confirmValid { inp with website := v } = confirmValid inp ∧
      ageValid { inp with website := v } = ageValid inp ∧
      termsValid { inp with website := v } = termsValid inp) ∧
    (termsValid { inp with terms := false } = false ∧
      allValidPure { inp with terms := false } = false ∧
      nameValid { inp with terms := false } = nameValid inp ∧
      emailValid { inp with terms := false } = emailValid inp ∧
      passwordValid { inp with terms := false } = passwordValid inp ∧
      confirmValid { inp with terms := false } = confirmValid inp ∧
      ageValid { inp with terms := false } = ageValid inp ∧
      websiteValid { inp with terms := false } = websiteValid inp) ∧
    (∀ v, passwordValid { inp with password := v } = false →
      allValidPure { inp with password := v } = false ∧
      nameValid { inp with password := v } = nameValid inp ∧
      emailValid { inp with password := v } = emailValid inp ∧
      ageValid { inp with password := v } = ageValid inp ∧
      websiteValid { inp with password := v } = websiteValid inp ∧
      termsValid { inp with password := v } = termsValid inp ∧
      confirmValid { inp with password := v } = false) := by
  simp only [allValidPure, Bool.and_eq_true] at h
  obtain ⟨⟨⟨⟨⟨⟨hn, he⟩, hp⟩, hc⟩, ha⟩, hw⟩, ht⟩ := h
  refine ⟨?_, ?_, ?_, ?_, ?_, ?_, ?_⟩
  · intro v hv
    exact ⟨by simp [allValidPure, hv], rfl, rfl, rfl, rfl, rfl, rfl⟩
  · intro v hv
    exact ⟨by simp [allValidPure, hv], rfl, rfl, rfl, rfl, rfl, rfl⟩
  · intro v hv
    exact ⟨by simp [allValidPure, hv], rfl, rfl, rfl, rfl, rfl, rfl⟩
  · intro v hv
    exact ⟨by simp [allValidPure, hv], rfl, rfl, rfl, rfl, rfl, rfl⟩
  · intro v hv
    exact ⟨by simp [allValidPure, hv], rfl, rfl, rfl, rfl, rfl, rfl⟩
  · refine ⟨rfl, by simp [allValidPure, termsValid], rfl, rfl, rfl, rfl, rfl, rfl⟩
  · intro v hv
    have hvne : v ≠ inp.password := by
      intro hEq
      rw [show passwordValid { inp with password := v } =
        passwordRegexMatch v from rfl, hEq] at hv
      exact absurd hp (by rw [show passwordValid inp =
        passwordRegexMatch inp.password from rfl, hv]; simp)
    have hcf : confirmValid { inp with password := v } = false := by
      have hcp : inp.confirm = inp.password := by
        simpa [confirmValid] using hc
      simp [confirmValid, hcp]
      exact fun hEq => hvne hEq.symm
    exact ⟨by simp [allValidPure, hv], rfl, rfl, rfl, rfl, rfl, hcf⟩

/-- Witness for claim C6: applied at the fully valid input with the
password flipped to a short string, the amended independence theorem
yields a false aggregate and a now-invalid confirm field. -/
theorem flip_independence_witness :
    allValidPure { goodInput with password := "short".toList } = false ∧
    confirmValid { goodInput with password := "short".toList } = false := by
  have h := (flip_independence goodInput (by decide)).2.2.2.2.2.2
    ( "short".toList ) (by decide)
  exact ⟨h.1, h.2.2.2.2.2.2⟩

/-- An input whose only nonempty content is the website string. -/
def websiteInput (s : List Char) : FormInput := { emptyInput with website := s }

/-- Claim C8: `validateWebsite` accepts the empty trimmed value (the
field is optional) and otherwise accepts exactly the strings matched by
the loose URL pattern; the four example strings behave as stated. -/
theorem validateWebsite_characterization (inp : FormInput) (st : DomState) :
    (jsTrim inp.website = [] → (validateWebsite inp st).1 = true) ∧
    ((validateWebsite inp st).1 = true ↔
      (jsTrim inp.website = [] ∨ urlRegexMatch (jsTrim inp.website) = true)) ∧
    (validateWebsite (websiteInput []) st).1 = true ∧
    (validateWebsite (websiteInput ( "example.com".toList )) st).1 = true ∧
    (validateWebsite
      (websiteInput ( "https://example.co/path".toList )) st).1 = true ∧
    (validateWebsite (websiteInput ( "not a url".toList )) st).1 = false := by
  refine ⟨?_, ?_, ?_, ?_, ?_, ?_⟩ <;> rw [validateWebsite_eq] <;> simp only []
  · intro hE
    simp [websiteValid, hE]
  · by_cases hE : jsTrim inp.website = []
    · simp [websiteValid, hE]
    · simp [websiteValid, hE]
  all_goals decide

/-- Witness for claim C8: the optional-field conjunct applied to the
empty website input, its emptiness hypothesis discharged by evaluation. -/
theorem validateWebsite_characterization_witness :
    (validateWebsite (websiteInput []) domClear).1 = true :=
  (validateWebsite_characterization (websiteInput []) domClear).1 (by decide)

/-! ### Exception model  (claim C9)

The only fallible operations inside the validators are DOM lookups:
reading `.value`/`.checked` on one of the element references captured at
startup, and the fresh `document.getElementById(... + "-error")` lookup
inside `showError`/`clearError` (and done directly by `validateTerms`).
If such an element is missing the JS code throws a TypeError on the
subsequent property access.  `Page` records which elements exist;
validators in the exception monad either throw (missing element) or
return exactly what the pure model returns. -/

/-- Which form controls and which error labels exist on the hosting
page. -/
structure Page where
  fieldPresent : FieldId → Bool
  labelPresent : FieldId → Bool

/-- The page on which every control and every label exists. -/
def pageAll : Page := { fieldPresent := fun _ => true, labelPresent := fun _ => true }

/-- Reading a property of a captured element reference: throws when the
element was missing (`getElementById` returned null). -/
def getFieldE (pg : Page) (f : FieldId) : Except Unit Unit :=
  if pg.fieldPresent f then .ok () else .error ()

/-- `showError` with the fresh error-label lookup made explicit. -/
def showErrorE (pg : Page) (st : DomState) (f : FieldId) (m : String) :
    Except Unit DomState :=
  if pg.labelPresent f then .ok (showError st f m) else .error ()

/-- `clearError` with the fresh error-label lookup made explicit. -/
def clearErrorE (pg : Page) (st : DomState) (f : FieldId) :
    Except Unit DomState :=
  if pg.labelPresent f then .ok (clearError st f) else .error ()

/-- The direct label assignment of `validateTerms`, fallible. -/
def setTextE (pg : Page) (st : DomState) (f : FieldId) (m : String) :
    Except Unit DomState :=
  if pg.labelPresent f then .ok (setText st f m) else .error ()

/-- `validateName` in the exception monad. -/
def validateNameE (pg : Page) (inp : FormInput) (st : DomState) :
    Except Unit (Bool × DomState) :=
  match getFieldE pg FieldId.name with
  | .error e => .error e
  | .ok _ =>
    if (jsTrim inp.name).length < 2 then
      match showErrorE pg st FieldId.name nameMsg with
      | .error e => .error e
      | .ok st2 => .ok (false, st2)
    else
      match clearErrorE pg st FieldId.name with
      | .error e => .error e
      | .ok st2 => .ok (true, st2)

/-- `validateEmail` in the exception monad. -/
def validateEmailE (pg : Page) (inp : FormInput) (st : DomState) :
    Except Unit (Bool × DomState) :=
  match getFieldE pg FieldId.email with
  | .error e => .error e
  | .ok _ =>
    if !emailRegexMatch (jsTrim inp.email) then
      match showErrorE pg st FieldId.email emailMsg with
      | .error e => .error e
      | .ok st2 => .ok (false, st2)
    else
      match clearErrorE pg st FieldId.email with
      | .error e => .error e
      | .ok st2 => .ok (true, st2)

/-- `validatePassword` in the exception monad. -/
def validatePasswordE (pg : Page) (inp : FormInput) (st : DomState) :
    Except Unit (Bool × DomState) :=
  match getFieldE pg FieldId.password with
  | .error e => .error e
  | .ok _ =>
    if !passwordRegexMatch inp.password then
      match showErrorE pg st FieldId.password passwordMsg with
      | .error e => .error e
      | .ok st2 => .ok (false, st2)
    else
      match clearErrorE pg st FieldId.password with
      | .error e => .error e
      | .ok st2 => .ok (true, st2)

/-- `validateConfirm` in the exception monad: reads both the confirm and
the password element. -/
def validateConfirmE (pg : Page) (inp : FormInput) (st : DomState) :
    Except Unit (Bool × DomState) :=
  match getFieldE pg FieldId.confirm with
  | .error e => .error e
  | .ok _ =>
    match getFieldE pg FieldId.password with
    | .error e => .error e
    | .ok _ =>
      if !(inp.confirm == inp.password) then
        match showErrorE pg st FieldId.confirm confirmMsg with
        | .error e => .error e
        | .ok st2 => .ok (false, st2)
      else
        match clearErrorE pg st FieldId.confirm with
        | .error e => .error e
        | .ok st2 => .ok (true, st2)

/-- `validateAge` in the exception monad: `Number(...)` itself is total
on every string, so the only fallible steps are the element accesses. -/
def validateAgeE (pg : Page) (inp : FormInput) (st : DomState) :
    Except Unit (Bool × DomState) :=
  match getFieldE pg FieldId.age with
  | .error e => .error e
  | .ok _ =>
    let v := jsStringToNumber inp.age
    if !(jsTruthy v) || jsLtNat v 13 || jsGtNat v 120 then
      match showErrorE pg st FieldId.age ageMsg with
      | .error e => .error e
      | .ok st2 => .ok (false, st2)
    else
      match clearErrorE pg st FieldId.age with
      | .error e => .error e
      | .ok st2 => .ok (true, st2)

/-- `validateWebsite` in the exception monad. -/
def validateWebsiteE (pg : Page) (inp : FormInput) (st : DomState) :
    Except Unit (Bool × DomState) :=
  match getFieldE pg FieldId.website with
  | .error e => .error e
  | .ok _ =>
    let v := jsTrim inp.website
    if v == [] then
      match clearErrorE pg st FieldId.website with
      | .error e => .error e
      | .ok st2 => .ok (true, st2)
    else if !urlRegexMatch v then
      match showErrorE pg st FieldId.website websiteMsg with
      | .error e => .error e
      | .ok st2 => .ok (false, st2)
    else
      match clearErrorE pg st FieldId.website with
      | .error e => .error e
      | .ok st2 => .ok (true, st2)

/-- `validateTerms` in the exception monad: reads the checkbox and
assigns the label text directly. -/
def validateTermsE (pg : Page) (inp : FormInput) (st : DomState) :
    Except Unit (Bool × DomState) :=
  match getFieldE pg FieldId.terms with
  | .error e => .error e
  | .ok _ =>
    if !inp.terms then
      match setTextE pg st FieldId.terms termsMsg with
      | .error e => .error e
      | .ok st2 => .ok (false, st2)
    else
      match setTextE pg st FieldId.terms "" with
      | .error e => .error e
      | .ok st2 => .ok (true, st2)

/-- Dispatch from a field to its fallible validator. -/
def runValidatorE : FieldId → Page → FormInput → DomState →
    Except Unit (Bool × DomState)
  | .name => validateNameE
  | .email => validateEmailE
  | .password => validatePasswordE
  | .confirm => validateConfirmE
  | .age => validateAgeE
  | .website => validateWebsiteE
  | .terms => validateTermsE

/-- Claim C9: under the precondition that every referenced form control
and every error label exists, each validator is total — it never throws,
and returns exactly what the pure model returns, reporting failures only
through the error text and the marker. -/
theorem validators_total (pg : Page)
    (hf : ∀ f, pg.fieldPresent f = true)
    (hl : ∀ f, pg.labelPresent f = true)
    (f : FieldId) (inp : FormInput) (st : DomState) :
    runValidatorE f pg inp st = Except.ok (runValidator f inp st) := by
  cases f <;>
    simp only [runValidatorE, runValidator, validateNameE, validateName,
      validateEmailE, validateEmail, validatePasswordE, validatePassword,
      validateConfirmE, validateConfirm, validateAgeE, validateAge,
      validateWebsiteE, validateWebsite, validateTermsE, validateTerms,
      getFieldE, showErrorE, clearErrorE, setTextE, hf, hl, if_true]
  all_goals split <;> simp_all
  all_goals split <;> simp_all

/-- Witness for claim C9: on the everything-present page, the fallible
age validator agrees with the pure one at the empty input. -/
theorem validators_total_witness :
    runValidatorE FieldId.age pageAll emptyInput domClear =
      Except.ok (runValidator FieldId.age emptyInput domClear) :=
  validators_total pageAll (by decide) (by decide) FieldId.age emptyInput
    domClear

/-! ### Claim C1: the shape accepted by `emailRegex`

The claim describes acceptance as: no embedded whitespace, exactly one
at sign, a dot in the domain, and a final label (the part after the LAST
dot) of at least 2 characters.  The last point is not what the regex
checks: `[^\s@]{2,}` may itself contain dots, so the regex only demands
at least two non-whitespace, non-at characters after SOME dot of the
domain.  `specEmailClaim` renders the claim verbatim (executably, for
the counterexample); `emailRegexMatch_iff` proves the amended
characterization. -/

/-- The part of a domain after its last dot. -/
def finalLabel (d : List Char) : List Char :=
  (d.reverse.takeWhile (fun c => c != '.')).reverse

/-- The acceptance condition exactly as the claim words it: on the
trimmed string, no whitespace, exactly one at sign with a nonempty local
part, a dot in the domain, and a final label of length at least 2. -/
def specEmailClaim (s : List Char) : Bool :=
  let t := jsTrim s
  t.all (fun c => !(isJsWs c)) && (t.count '@' == 1) &&
  !(t.take (t.indexOf '@')).isEmpty &&
  (t.drop (t.indexOf '@' + 1)).contains '.' &&
  decide (2 ≤ (finalLabel (t.drop (t.indexOf '@' + 1))).length)

/-- Counterexample for claim C1 as stated: the trimmed string
`a@b.c.` is accepted by `emailRegex` (the two characters after the first
domain dot are `c` and a second dot, both in `[^\s@]`), but its final
label — the part after the last dot — is empty, so the claim's shape
condition rejects it. -/
theorem email_shape_counterexample :
    emailRegexMatch ( "a@b.c.".toList ) = true ∧
    specEmailClaim ( "a@b.c.".toList ) = false ∧
    (validateEmail { emptyInput with email := "a@b.c.".toList }
      domClear).1 = true := by
  refine ⟨by decide, by decide, by decide⟩

theorem dropWhile_append_cons (p : Char → Bool) (a : List Char) (x : Char)
    (r : List Char) (ha : ∀ c ∈ a, p c = true) (hx : p x = false) :
    (a ++ x :: r).dropWhile p = x :: r := by
  induction a with
  | nil => simp [List.dropWhile_cons, hx]
  | cons c a ih =>
    simp only [List.cons_append, List.dropWhile_cons,
      ha c (List.mem_cons_self c a), if_true]
    exact ih (fun c hc => ha c (List.mem_cons_of_mem _ hc))

theorem takeWhile_append_cons (p : Char → Bool) (a : List Char) (x : Char)
    (r : List Char) (ha : ∀ c ∈ a, p c = true) (hx : p x = false) :
    (a ++ x :: r).takeWhile p = a := by
  induction a with
  | nil => simp [List.takeWhile_cons, hx]
  | cons c a ih =>
    simp only [List.cons_append, List.takeWhile_cons,
      ha c (List.mem_cons_self c a), if_true]
    exact congrArg (c :: ·) (ih (fun c hc => ha c (List.mem_cons_of_mem _ hc)))

theorem domMatch_iff (d : List Char) :
    domMatch d = true ↔ ∃ j, 1 ≤ j ∧ j + 3 ≤ d.length ∧
      (∀ c ∈ d.take j, isAtomChar c = true) ∧ d[j]? = some '.' ∧
      (∀ c ∈ d.drop (j+1), isAtomChar c = true) := by
  constructor
  · intro h
    obtain ⟨j, hjmem, hj⟩ := List.any_eq_true.mp h
    simp only [Bool.and_eq_true, decide_eq_true_eq, List.all_eq_true,
      beq_iff_eq] at hj
    obtain ⟨⟨⟨⟨h1, h2⟩, h3⟩, h4⟩, h5⟩ := hj
    have hjlt : j < d.length := List.mem_range.mp hjmem
    refine ⟨j, h1, h5, h2, ?_, h4⟩
    rw [List.getD_eq_getElem?_getD, List.getElem?_eq_getElem hjlt] at h3
    rw [List.getElem?_eq_getElem hjlt]
    exact congrArg some h3
  · rintro ⟨j, h1, hlen, h2, h3, h4⟩
    have hjlt : j < d.length := by omega
    apply List.any_eq_true.mpr
    refine ⟨j, List.mem_range.mpr hjlt, ?_⟩
    simp only [Bool.and_eq_true, decide_eq_true_eq, List.all_eq_true,
      beq_iff_eq]
    refine ⟨⟨⟨⟨h1, h2⟩, ?_⟩, h4⟩, hlen⟩
    rw [List.getD_eq_getElem?_getD, h3]
    rfl

theorem isAtomChar_char_props (x : Char) (hw : isJsWs x = false)
    (hx : x ≠ '@') : isAtomChar x = true := by
  simp [isAtomChar, hw, hx]

/-- Characterization of `emailRegexMatch`: the string has no whitespace,
exactly one at sign which is not the first character, and a dot at least
two positions after the at sign with at least two characters after the
dot (the characters after that dot may themselves include dots). -/
theorem emailRegexMatch_iff (t : List Char) :
    emailRegexMatch t = true ↔
      ((∀ c ∈ t, isJsWs c = false) ∧ t.count '@' = 1 ∧
        ∃ i j, t[i]? = some '@' ∧ 1 ≤ i ∧ t[j]? = some '.' ∧
          i + 2 ≤ j ∧ j + 3 ≤ t.length) := by
  constructor
  · intro h
    unfold emailRegexMatch at h
    cases hd : t.dropWhile isAtomChar with
    | nil => rw [hd] at h; simp at h
    | cons c d =>
      rw [hd] at h
      simp only [Bool.and_eq_true, beq_iff_eq] at h
      obtain ⟨⟨hc, hne⟩, hdm⟩ := h
      have hsplit : t = t.takeWhile isAtomChar ++ '@' :: d := by
        conv_lhs => rw [← List.takeWhile_append_dropWhile (p := isAtomChar)
          (l := t)]
        rw [hd, hc]
      set a := t.takeWhile isAtomChar with hA
      have haAtom : ∀ x ∈ a, isAtomChar x = true := fun x hx =>
        List.mem_takeWhile_imp hx
      have haNe : a ≠ [] := by
        intro h0
        rw [h0] at hne
        simp at hne
      obtain ⟨j', hj1, hjlen, hb, hdot, hcs⟩ := (domMatch_iff d).mp hdm
      have hj'lt : j' < d.length := by omega
      have hdj : d[j'] = '.' := by
        rw [List.getElem?_eq_getElem hj'lt] at hdot
        exact Option.some.inj hdot
      have hdmem : ∀ x ∈ d, isAtomChar x = true ∨ x = '.' := by
        intro x hx
        rw [← List.take_append_drop j' d] at hx
        rcases List.mem_append.mp hx with h1 | h2
        · exact Or.inl (hb x h1)
        · rw [List.drop_eq_getElem_cons hj'lt, hdj] at h2
          rcases List.mem_cons.mp h2 with rfl | h3
          · exact Or.inr rfl
          · exact Or.inl (hcs x h3)
      have hwsAtom : ∀ x : Char, isAtomChar x = true → isJsWs x = false := by
        intro x hx
        simp only [isAtomChar, Bool.and_eq_true, Bool.not_eq_true'] at hx
        exact hx.1
      refine ⟨?_, ?_, a.length, a.length + 1 + j', ?_, ?_, ?_, ?_, ?_⟩
      · intro x hx
        rw [hsplit] at hx
        rcases List.mem_append.mp hx with hxa | hxd
        · exact hwsAtom x (haAtom x hxa)
        · rcases List.mem_cons.mp hxd with rfl | hxd2
          · decide
          · rcases hdmem x hxd2 with hat | hdotx
            · exact hwsAtom x hat
            · rw [hdotx]; decide
      · have hnota : '@' ∉ a := by
          intro hmem
          have := haAtom '@' hmem
          simp [isAtomChar] at this
        have hnotd : '@' ∉ d := by
          intro hmem
          rcases hdmem '@' hmem with hat | habs
          · simp [isAtomChar] at hat
          · exact absurd habs (by decide)
        rw [hsplit]
        simp [List.count_append, List.count_cons,
          List.count_eq_zero.mpr hnota, List.count_eq_zero.mpr hnotd]
      · rw [hsplit, List.getElem?_append_right (Nat.le_refl a.length)]
        simp
      · have := List.length_pos.mpr haNe
        omega
      · rw [hsplit, List.getElem?_append_right
          (by omega : a.length ≤ a.length + 1 + j')]
        have hidx : a.length + 1 + j' - a.length = j' + 1 := by omega
        rw [hidx, List.getElem?_cons_succ]
        exact hdot
      · omega
      · rw [hsplit]
        simp only [List.length_append, List.length_cons]
        omega
  · rintro ⟨hws, hcount, i, j, hi, h1i, hj, hij, hjlen⟩
    obtain ⟨hilt, hti⟩ := List.getElem?_eq_some_iff.mp hi
    set a := t.take i with hA
    set d := t.drop (i+1) with hD
    have hsplit : t = a ++ '@' :: d := by
      conv_lhs => rw [← List.take_append_drop i t]
      rw [List.drop_eq_getElem_cons hilt, hti]
    have hcount2 : a.count '@' + (d.count '@' + 1) = 1 := by
      rw [hsplit] at hcount
      simpa [List.count_append, List.count_cons] using hcount
    have ha0 : '@' ∉ a := by
      apply List.count_eq_zero.mp
      omega
    have hd0 : '@' ∉ d := by
      apply List.count_eq_zero.mp
      omega
    have haAtom : ∀ x ∈ a, isAtomChar x = true := by
      intro x hx
      refine isAtomChar_char_props x (hws x (List.take_subset i t hx)) ?_
      intro hEq
      exact ha0 (hEq ▸ hx)
    have hdAtom : ∀ x ∈ d, isAtomChar x = true := by
      intro x hx
      refine isAtomChar_char_props x (hws x (List.drop_subset (i+1) t hx)) ?_
      intro hEq
      exact hd0 (hEq ▸ hx)
    have halen : a.length = i := by
      rw [hA, List.length_take]
      omega
    have haNe : a ≠ [] := by
      intro h0
      rw [h0] at halen
      simp at halen
      omega
    unfold emailRegexMatch
    have hdw : t.dropWhile isAtomChar = '@' :: d := by
      rw [hsplit]
      exact dropWhile_append_cons _ a '@' d haAtom (by decide)
    have htw : t.takeWhile isAtomChar = a := by
      rw [hsplit]
      exact takeWhile_append_cons _ a '@' d haAtom (by decide)
    rw [hdw]
    simp only [Bool.and_eq_true, beq_self_eq_true, true_and, htw]
    constructor
    · simpa [List.isEmpty_iff] using haNe
    · apply (domMatch_iff d).mpr
      have hdlen : d.length = t.length - (i + 1) := by
        rw [hD, List.length_drop]
      refine ⟨j - i - 1, by omega, by omega, ?_, ?_, ?_⟩
      · intro x hx
        exact hdAtom x (List.take_subset _ d hx)
      · rw [hD, List.getElem?_drop]
        have hidx : i + 1 + (j - i - 1) = j := by omega
        rw [hidx]
        exact hj
      · intro x hx
        exact hdAtom x (List.drop_subset _ d hx)

/-- Claim C1 (amended): `validateEmail` accepts exactly the inputs whose
trimmed value has no whitespace, exactly one at sign which is not the
first character, and a dot at least two positions after the at sign
followed by at least two further characters — the characters after that
dot may themselves include dots, so the label after the LAST dot may be
shorter than 2 (unlike the original claim); on failure the displayed
message is exactly the specified one. -/
theorem validateEmail_characterization (inp : FormInput) (st : DomState) :
    ((validateEmail inp st).1 = true ↔
      ((∀ c ∈ jsTrim inp.email, isJsWs c = false) ∧
       (jsTrim inp.email).count '@' = 1 ∧
       ∃ i j, (jsTrim inp.email)[i]? = some '@' ∧ 1 ≤ i ∧
         (jsTrim inp.email)[j]? = some '.' ∧ i + 2 ≤ j ∧
         j + 3 ≤ (jsTrim inp.email).length)) ∧
    ((validateEmail inp st).1 = false →
      ((validateEmail inp st).2).errText FieldId.email = emailMsg) := by
  constructor
  · rw [validateEmail_eq]
    exact emailRegexMatch_iff (jsTrim inp.email)
  · rw [validateEmail_eq]
    intro h
    simp only at h
    simp [h]

/-- Witness for claim C1: on the invalid input `a@b` the failure message
is the specified one (the failure hypothesis discharged by evaluation),
and on `a@b.co` the equivalence produces the amended shape. -/
theorem validateEmail_characterization_witness :
    ((validateEmail { emptyInput with email := "a@b".toList }
        domClear).2).errText FieldId.email = emailMsg ∧
    ((∀ c ∈ jsTrim ( "a@b.co".toList ), isJsWs c = false) ∧
     (jsTrim ( "a@b.co".toList )).count '@' = 1 ∧
     ∃ i j, (jsTrim ( "a@b.co".toList ))[i]? = some '@' ∧ 1 ≤ i ∧
       (jsTrim ( "a@b.co".toList ))[j]? = some '.' ∧ i + 2 ≤ j ∧
       j + 3 ≤ (jsTrim ( "a@b.co".toList )).length) :=
  ⟨(validateEmail_characterization { emptyInput with email := "a@b".toList }
      domClear).2 (by decide),
   (validateEmail_characterization { emptyInput with email := "a@b.co".toList }
      domClear).1.mp (by decide)⟩
